import Mathlib

/-!
Verification of the PeerDrop discovery and signaling server.

The definitions below are a shallow embedding of the server-side code:
the peer registry (`peerManager`), the WebSocket signaling relay and its
pending-message fallback queue (`services/websocket.js`), the discovery
engine (`services/discovery.js`), the HTTP routes (`routes/api.js`) and
the network utilities (`utils/network.js`).  JavaScript `Map`s are
modelled as insertion-ordered association lists with the same get / set /
delete semantics; network effects (remote HTTP forwards, probe health
checks, wall-clock timestamps) are parameters of the corresponding
functions.
-/

namespace PeerDrop

/-! ## Association-list model of a JavaScript Map

`Map.get` returns the value of the (unique) entry for a key;
`Map.set` overwrites an existing entry in place, otherwise appends;
`Map.delete` removes the entry for a key.  Iteration order is insertion
order, which the list order represents.  -/

def mapGet {α β : Type} [DecidableEq α] : List (α × β) → α → Option β
  | [], _ => none
  | p :: rest, k => if p.1 = k then some p.2 else mapGet rest k

def mapSet {α β : Type} [DecidableEq α] : List (α × β) → α → β → List (α × β)
  | [], k, v => [(k, v)]
  | p :: rest, k, v => if p.1 = k then (k, v) :: rest else p :: mapSet rest k v

def mapDelete {α β : Type} [DecidableEq α] : List (α × β) → α → List (α × β)
  | [], _ => []
  | p :: rest, k => if p.1 = k then rest else p :: mapDelete rest k

/-- The keys of a JavaScript `Map` are pairwise distinct. -/
def keysNodup {α β : Type} (m : List (α × β)) : Prop :=
  (m.map Prod.fst).Nodup

/-! ## Peer Registry (`server/services/peerManager.js`) -/

/-- A discovered-peer record: `{id, name, ip, port, lastSeen}`. -/
structure Peer where
  id : String
  name : String
  ip : String
  port : Nat
  lastSeen : String
deriving DecidableEq

/-- The registry `peerMap`, keyed by peer IP. -/
abbrev PeerMap := List (String × Peer)

/-- `addPeer`: insert a new record, or overwrite an existing record for the
same IP only when the incoming `lastSeen` is strictly greater. -/
def addPeer (peer : Peer) (m : PeerMap) : PeerMap :=
  match mapGet m peer.ip with
  | none => mapSet m peer.ip peer
  | some existingPeer =>
      if existingPeer.lastSeen < peer.lastSeen then mapSet m peer.ip peer else m

/-- `getPeers`: all records, in insertion order. -/
def getPeers (m : PeerMap) : List Peer := m.map Prod.snd

/-- `clearPeers`: wipe the registry. -/
def clearPeers : PeerMap := []

/-- `getPeerCount`. -/
def getPeerCount (m : PeerMap) : Nat := m.length

/-! ## Signaling relay (`server/services/websocket.js`)

Local WebSocket sessions are identified by natural numbers.  The relay
state keeps `clients : Map IP → session` and `clientIPs : Map session →
IP`.  Whether a session is in the `OPEN` ready state is an environment
parameter `openSess`.  -/

/-- JavaScript `a || b` on strings: the empty string is falsy. -/
def jsOrStr (s : Option String) (d : String) : String :=
  match s with
  | some v => if v = "" then d else v
  | none => d

/-- The default display name used by the server: `Peer ${ip}`. -/
def mkPeerName (senderIP : String) : String := "Peer " ++ senderIP

/-- A parsed client payload.  `fromIP` and `timestamp` are the values the
client claims in its payload; the server ignores both when it builds the
forwarded envelope. -/
structure WsData where
  type : String
  clientIP : String
  targetIP : String
  fromIP : String
  timestamp : String
  fromName : Option String
  offer : Option String
  answer : Option String
  candidate : Option String
deriving DecidableEq

/-- The envelope the relay builds and forwards on behalf of a client. -/
structure Envelope where
  type : String
  fromIP : String
  fromName : Option String
  offer : Option String
  answer : Option String
  candidate : Option String
  timestamp : String
deriving DecidableEq

/-- The sender identity used by `handleWebSocketMessage`: the session's
registered IP from `clientIPs`, falling back to the connection IP. -/
def senderOf (clientIPs : List (Nat × String)) (ws : Nat) (clientIP : String) : String :=
  (mapGet clientIPs ws).getD clientIP

/-- The envelope `handleWebSocketMessage` hands to `forwardSignalingMessage`
for each signaling message type, stamped with `senderIP` and the fresh
server time `now`.  `none` for `ping` and unknown types. -/
def buildSignal (senderIP now : String) (data : WsData) : Option Envelope :=
  if data.type = "connection_request" then
    some ⟨"connection_request", senderIP,
      some (jsOrStr data.fromName (mkPeerName senderIP)), none, none, none, now⟩
  else if data.type = "connection_accept" ∨ data.type = "connection_reject" then
    some ⟨data.type, senderIP,
      some (jsOrStr data.fromName (mkPeerName senderIP)), none, none, none, now⟩
  else if data.type = "webrtc_offer" then
    some ⟨"webrtc_offer", senderIP, none, data.offer, none, none, now⟩
  else if data.type = "webrtc_answer" then
    some ⟨"webrtc_answer", senderIP, none, none, data.answer, none, now⟩
  else if data.type = "webrtc_ice_candidate" then
    some ⟨"webrtc_ice_candidate", senderIP, none, none, none, data.candidate, now⟩
  else none

/-- The message types `handleWebSocketMessage` forwards as signaling. -/
def signalingTypes : List String :=
  ["connection_request", "connection_accept", "connection_reject",
   "webrtc_offer", "webrtc_answer", "webrtc_ice_candidate"]

/-- Split a character list at every occurrence of `c`
(JavaScript `String.prototype.split`). -/
def splitChar (c : Char) : List Char → List (List Char)
  | [] => [[]]
  | x :: xs =>
      if x = c then [] :: splitChar c xs
      else
        match splitChar c xs with
        | [] => [[x]]
        | y :: ys => (x :: y) :: ys

/-- `parseInt` restricted to all-digit strings: `none` on empty or
non-digit input (JavaScript `NaN`), the decimal value otherwise. -/
def charsToNat? (l : List Char) : Option Nat :=
  if l ≠ [] ∧ l.all (fun c => c.isDigit) then
    some (l.foldl (fun n c => n * 10 + (c.toNat - 48)) 0)
  else none

/-- `shouldSkipIP`: link-local 169.254.x.x and VirtualBox NAT 10.0.2.x. -/
def shouldSkipIP (ip : String) : Bool :=
  let parts := splitChar '.' ip.data
  let firstOctet := (parts[0]?).bind charsToNat?
  let secondOctet := (parts[1]?).bind charsToNat?
  let thirdOctet := (parts[2]?).bind charsToNat?
  (firstOctet == some 169 && secondOctet == some 254) ||
  (firstOctet == some 10 && secondOctet == some 0 && thirdOctet == some 2)

/-- Outcome of the HTTP POST to the remote peer's `/api/forward`. -/
inductive RemoteOutcome
  | ok
  | httpError
  | connError
  | timeout
deriving DecidableEq

/-- `true` only for a 200 response. -/
def RemoteOutcome.success : RemoteOutcome → Bool
  | .ok => true
  | _ => false

/-- `forwardToRemoteServer`: skipped IPs resolve `false` immediately;
otherwise the result is the outcome of the HTTP request. -/
def forwardToRemoteServer (targetIP : String) (outcome : RemoteOutcome) : Bool :=
  if shouldSkipIP targetIP then false else outcome.success

/-- A queued envelope: `{...message, storedAt}`. -/
structure StoredMsg where
  msg : Envelope
  storedAt : String
deriving DecidableEq

/-- `pendingSignaling : Map targetIP → Array of pending messages`. -/
abbrev PendingMap := List (String × List StoredMsg)

/-- The fallback-queue push: create the entry if absent, then append the
stamped envelope. -/
def storePending (pending : PendingMap) (targetIP : String) (message : Envelope)
    (now : String) : PendingMap :=
  mapSet pending targetIP (((mapGet pending targetIP).getD []) ++ [⟨message, now⟩])

/-- Is a live `OPEN` session keyed by `ip` in `clients`? -/
def openAt (clients : List (String × Nat)) (openSess : Nat → Bool) (ip : String) : Bool :=
  match mapGet clients ip with
  | some ws => openSess ws
  | none => false

/-- Which delivery tier handled the envelope. -/
inductive DeliveryPath
  | localDelivered
  | remoteDelivered
  | queued
deriving DecidableEq

/-- `forwardSignalingMessage`: local delivery when the target is this
process's own IP and an open session is keyed by it; otherwise attempt the
remote forward and, on failure, store the stamped envelope for polling. -/
def forwardSignalingMessage (localIP : String) (clients : List (String × Nat))
    (openSess : Nat → Bool) (pending : PendingMap) (targetIP : String)
    (message : Envelope) (outcome : RemoteOutcome) (now : String) :
    PendingMap × DeliveryPath :=
  if targetIP = localIP ∧ openAt clients openSess localIP = true then
    (pending, .localDelivered)
  else if forwardToRemoteServer targetIP outcome then
    (pending, .remoteDelivered)
  else
    (storePending pending targetIP message now, .queued)

/-- `getPendingSignaling`: return the queue for `peerIP` and clear it. -/
def getPendingSignaling (pending : PendingMap) (peerIP : String) :
    List StoredMsg × PendingMap :=
  ((mapGet pending peerIP).getD [], mapDelete pending peerIP)

/-- Result of `GET /poll-signaling`: 400 when no peer IP was supplied,
otherwise a success body with the drained messages and their count. -/
inductive PollResult
  | badRequest
  | polled (messages : List StoredMsg) (count : Nat)
deriving DecidableEq

/-- The `/poll-signaling` route handler. -/
def pollSignalingRoute (pending : PendingMap) (peerIP : String) :
    PollResult × PendingMap :=
  if peerIP = "" then (PollResult.badRequest, pending)
  else
    let r := getPendingSignaling pending peerIP
    (PollResult.polled r.1 r.1.length, r.2)

/-! ## Client-session registry and the message router of the earlier
relay (`peerManager` sibling module, source part_005) -/

/-- `register` handler: drop the old `clients` mapping when it differs
from the newly reported IP, then key the session by the reported IP in
both directions.  Returns the updated `(clients, clientIPs)`. -/
def registerClient (clients : List (String × Nat)) (clientIPs : List (Nat × String))
    (ws : Nat) (newIP : String) : List (String × Nat) × List (Nat × String) :=
  let oldIP := mapGet clientIPs ws
  let clients1 :=
    match oldIP with
    | some o => if o ≠ newIP then mapDelete clients o else clients
    | none => clients
  (mapSet clients1 newIP ws, mapSet clientIPs ws newIP)

/-- Remove the first occurrence of the pattern `pat`
(JavaScript `String.prototype.replace` with a string pattern). -/
def jsReplaceFirst (pat : List Char) : List Char → List Char
  | [] => []
  | x :: xs =>
      if pat.isPrefixOf (x :: xs) then (x :: xs).drop pat.length
      else x :: jsReplaceFirst pat xs

/-- `ip.replace('::ffff:', '')`: strip the IPv6-mapped-IPv4 marker. -/
def normalizeIP (ip : String) : List Char :=
  jsReplaceFirst "::ffff:".data ip.data

/-- Substring containment (JavaScript `String.prototype.includes`). -/
def containsSub (sub : List Char) : List Char → Bool
  | [] => sub.isEmpty
  | x :: xs => sub.isPrefixOf (x :: xs) || containsSub sub xs

/-- The loose address-match heuristic of `forwardMessage`: normalize both
sides and accept equality or bidirectional substring containment. -/
def ipMatches (ip targetIP : String) : Bool :=
  let normalizedIP := normalizeIP ip
  let normalizedTarget := normalizeIP targetIP
  normalizedIP == normalizedTarget ||
  containsSub normalizedTarget normalizedIP ||
  containsSub normalizedIP normalizedTarget

/-- How `forwardMessage` routes an envelope. -/
inductive Route
  | localExact (ws : Nat)
  | localHeuristic (ip : String) (ws : Nat)
  | remote
deriving DecidableEq

/-- The heuristic pass of `forwardMessage`: the first client entry, in
insertion order, that matches the heuristic and is open. -/
def findHeuristic (clients : List (String × Nat)) (openSess : Nat → Bool)
    (targetIP : String) : Option (String × Nat) :=
  clients.find? (fun p => ipMatches p.1 targetIP && openSess p.2)

/-- `forwardMessage`: exact key match first, then the heuristic scan,
then server-to-server forwarding. -/
def forwardMessage (clients : List (String × Nat)) (openSess : Nat → Bool)
    (targetIP : String) : Route :=
  let exact :=
    match mapGet clients targetIP with
    | some ws0 => if openSess ws0 then some ws0 else none
    | none => none
  match exact with
  | some ws0 => Route.localExact ws0
  | none =>
      match findHeuristic clients openSess targetIP with
      | some p => Route.localHeuristic p.1 p.2
      | none => Route.remote

/-! ## `/api/forward` route (`server/routes/api.js`) and its delivery
helper `handleForwardedMessage` -/

/-- `handleForwardedMessage`: prefer the session keyed by this process's
own IP; otherwise deliver to the first open session in insertion order.
Returns the receiving `(ip, session)`, or `none` when nothing is open. -/
def handleForwardedMessage (clients : List (String × Nat)) (openSess : Nat → Bool)
    (localIP : String) : Option (String × Nat) :=
  match mapGet clients localIP with
  | some ws =>
      if openSess ws then some (localIP, ws)
      else clients.find? (fun p => openSess p.2)
  | none => clients.find? (fun p => openSess p.2)

/-- A JSON scalar appearing in a route response body. -/
inductive JVal
  | jbool (b : Bool)
  | jstr (s : String)
deriving DecidableEq

/-- An HTTP response: status code and JSON object body. -/
structure HttpResponse where
  status : Nat
  body : List (String × JVal)
deriving DecidableEq

/-- The body of a `POST /forward` request; `fromIP` is the field the
route validates (empty string models a missing/falsy field). -/
structure ForwardBody where
  type : String
  fromIP : String
deriving DecidableEq

/-- The `POST /forward` route handler. -/
def forwardRoute (clients : List (String × Nat)) (openSess : Nat → Bool)
    (localIP : String) (message : Option ForwardBody) : HttpResponse :=
  match message with
  | none =>
      ⟨400, [("success", JVal.jbool false), ("error", JVal.jstr "Invalid message format")]⟩
  | some msg =>
      if msg.fromIP = "" then
        ⟨400, [("success", JVal.jbool false), ("error", JVal.jstr "Invalid message format")]⟩
      else
        let delivered := (handleForwardedMessage clients openSess localIP).isSome
        ⟨200, [("success", JVal.jbool delivered),
               ("message", JVal.jstr
                 (if delivered then "Signaling message delivered"
                  else "Client not connected"))]⟩

/-! ## Network utilities (`server/utils/network.js`) and the discovery
engine (`server/services/discovery.js`)

Probe outcomes (`healthOk`), per-probe timestamps (`ts`) and the set of
UDP responses received during a round are environment parameters.  -/

/-- Fixed control port. -/
def SERVER_PORT : Nat := 3001

/-- JavaScript `a || b` on numbers: `0` (and absence) is falsy. -/
def jsOrNat (p : Option Nat) (d : Nat) : Nat :=
  match p with
  | some v => if v = 0 then d else v
  | none => d

/-- First three dot-separated components of an IP
(`${parts[0]}.${parts[1]}.${parts[2]}`). -/
def getNetworkBase (ip : String) : String :=
  let parts := splitChar '.' ip.data
  String.mk ((parts[0]?).getD "undefined".data) ++ "." ++
  String.mk ((parts[1]?).getD "undefined".data) ++ "." ++
  String.mk ((parts[2]?).getD "undefined".data)

/-- `generateIPRange`: `baseIP.1` … `baseIP.254` minus `excludeIP`. -/
def generateIPRange (baseIP excludeIP : String) : List String :=
  ((List.range 254).map (fun i => baseIP ++ "." ++ toString (i + 1))).filter
    (fun targetIP => targetIP != excludeIP)

/-- The registry record a successful health probe of `ip` adds. -/
def peerOfProbe (ip now : String) : Peer :=
  ⟨ip, mkPeerName ip, ip, SERVER_PORT, now⟩

/-- Registry effect of `checkPeerServer ip`: skipped IPs are rejected
up front, a reachable server with a success health body is registered,
any failure leaves the registry alone. -/
def checkPeerServerAdds (ip : String) (healthOk : String → Bool) (ts : String → String)
    (m : PeerMap) : PeerMap :=
  if shouldSkipIP ip then m
  else if healthOk ip then addPeer (peerOfProbe ip (ts ip)) m
  else m

/-- `scanNetwork`: probe every address of the local /24 except self. -/
def scanNetwork (localIP : String) (healthOk : String → Bool) (ts : String → String)
    (m : PeerMap) : PeerMap :=
  (generateIPRange (getNetworkBase localIP) localIP).foldl
    (fun acc ip => checkPeerServerAdds ip healthOk ts acc) m

/-- A parsed UDP discovery datagram. -/
structure DiscoveryMessage where
  type : String
  ip : String
  port : Option Nat
  hostname : Option String
deriving DecidableEq

/-- `handleDiscoveryResponse`: drop our own IP and skipped IPs,
register everyone else. -/
def handleDiscoveryResponse (localIP now : String) (message : DiscoveryMessage)
    (m : PeerMap) : PeerMap :=
  if message.ip = localIP ∨ shouldSkipIP message.ip = true then m
  else
    addPeer ⟨message.ip, jsOrStr message.hostname (mkPeerName message.ip), message.ip,
      jsOrNat message.port SERVER_PORT, now⟩ m

/-- The UDP listener's message handler: unparseable datagrams are
dropped; `DISCOVERY_REQUEST` only triggers a reply (no registry change);
`DISCOVERY_RESPONSE` goes through `handleDiscoveryResponse`. -/
def udpOnMessage (parse : String → Option DiscoveryMessage) (localIP now : String)
    (m : PeerMap) (raw : String) : PeerMap :=
  match parse raw with
  | none => m
  | some message =>
      if message.type = "DISCOVERY_REQUEST" then m
      else if message.type = "DISCOVERY_RESPONSE" then
        handleDiscoveryResponse localIP now message m
      else m

/-- `discoverPeers`: clear the registry, run the subnet scan, fold in the
UDP responses received during the settle delays, snapshot. -/
def discoverPeers (localIP : String) (healthOk : String → Bool) (ts : String → String)
    (responses : List (DiscoveryMessage × String)) : List Peer :=
  let m1 := scanNetwork localIP healthOk ts clearPeers
  let m2 := responses.foldl (fun acc r => handleDiscoveryResponse localIP r.2 r.1 acc) m1
  getPeers m2

/-- Body of the `POST /discover` response. -/
structure DiscoverResponse where
  success : Bool
  peers : List Peer
  localIP : String
deriving DecidableEq

/-- The `POST /discover` route handler. -/
def discoverRoute (localIP : String) (healthOk : String → Bool) (ts : String → String)
    (responses : List (DiscoveryMessage × String)) : DiscoverResponse :=
  ⟨true, discoverPeers localIP healthOk ts responses, localIP⟩

/-! ## The full per-message server step (`initializeWebSocketServer`) -/

/-- All mutable server state touched by a WebSocket message. -/
structure ServerState where
  clients : List (String × Nat)
  clientIPs : List (Nat × String)
  pending : PendingMap
  peers : PeerMap
deriving DecidableEq

/-- State effect of one parsed WebSocket message: `register` updates the
session maps; `connection_request` self-registers the sender into the
peer registry; every signaling type builds an envelope and runs it
through `forwardSignalingMessage`; `ping` and unknown types change
nothing. -/
def wsHandle (localIP : String) (openSess : Nat → Bool) (outcome : RemoteOutcome)
    (st : ServerState) (ws : Nat) (clientIP now : String) (data : WsData) : ServerState :=
  if data.type = "register" ∧ data.clientIP ≠ "" then
    let r := registerClient st.clients st.clientIPs ws data.clientIP
    ⟨r.1, r.2, st.pending, st.peers⟩
  else
    let senderIP := senderOf st.clientIPs ws clientIP
    let peers1 :=
      if data.type = "connection_request" then
        addPeer ⟨senderIP, jsOrStr data.fromName (mkPeerName senderIP), senderIP,
          SERVER_PORT, now⟩ st.peers
      else st.peers
    match buildSignal senderIP now data with
    | some env =>
        ⟨st.clients, st.clientIPs,
          (forwardSignalingMessage localIP st.clients openSess st.pending data.targetIP env
            outcome now).1, peers1⟩
    | none => ⟨st.clients, st.clientIPs, st.pending, peers1⟩

/-- The raw `ws.on('message')` handler: the whole body is wrapped in a
try/catch, so an unparseable frame leaves every piece of state alone. -/
def wsOnMessage (parse : String → Option WsData) (localIP : String) (openSess : Nat → Bool)
    (outcome : RemoteOutcome) (st : ServerState) (ws : Nat) (clientIP now raw : String) :
    ServerState :=
  match parse raw with
  | none => st
  | some data => wsHandle localIP openSess outcome st ws clientIP now data

/-! ## Discovery events for the self-registration invariant -/

/-- The registry-mutating events of the discovery paths: an explicit
clear, a subnet-scan probe, an inbound discovery response. -/
inductive DiscoveryEvent
  | clearRegistry
  | probe (ip : String) (ok : Bool) (now : String)
  | response (message : DiscoveryMessage) (now : String)
deriving DecidableEq

/-- Registry effect of one discovery event. -/
def discoveryStep (localIP : String) (m : PeerMap) : DiscoveryEvent → PeerMap
  | .clearRegistry => clearPeers
  | .probe ip ok now => checkPeerServerAdds ip (fun _ => ok) (fun _ => now) m
  | .response message now => handleDiscoveryResponse localIP now message m

/-- No registry entry is keyed by, or carries, the local address. -/
def NoSelfRecord (localIP : String) (m : PeerMap) : Prop :=
  ∀ e ∈ m, e.1 ≠ localIP ∧ (e.2).ip ≠ localIP

end PeerDrop

namespace PeerDrop

/-! ## Theorems -/

theorem mapGet_set_self {α β : Type} [DecidableEq α] (m : List (α × β)) (k : α) (v : β) :
    mapGet (mapSet m k v) k = some v := by
  induction m with
  | nil => simp [mapSet, mapGet]
  | cons p rest ih =>
      by_cases h : p.1 = k
      · simp [mapSet, h, mapGet]
      · simp [mapSet, h, mapGet, ih]

theorem mapGet_set_ne {α β : Type} [DecidableEq α] (m : List (α × β)) (k k2 : α) (v : β)
    (h : k2 ≠ k) : mapGet (mapSet m k v) k2 = mapGet m k2 := by
  have hk : k ≠ k2 := fun he => h he.symm
  induction m with
  | nil => simp [mapSet, mapGet, hk]
  | cons p rest ih =>
      by_cases hp : p.1 = k
      · subst hp
        simp [mapSet, mapGet, hk]
      · simp [mapSet, hp, mapGet, ih]

theorem mapGet_eq_none {α β : Type} [DecidableEq α] (m : List (α × β)) (k : α)
    (h : k ∉ m.map Prod.fst) : mapGet m k = none := by
  induction m with
  | nil => simp [mapGet]
  | cons p rest ih =>
      simp only [List.map_cons, List.mem_cons, not_or] at h
      have hpk : p.1 ≠ k := fun he => h.1 he.symm
      simp [mapGet, hpk, ih h.2]

theorem mapGet_delete_self {α β : Type} [DecidableEq α] (m : List (α × β)) (k : α)
    (h : keysNodup m) : mapGet (mapDelete m k) k = none := by
  induction m with
  | nil => simp [mapDelete, mapGet]
  | cons p rest ih =>
      rw [keysNodup, List.map_cons, List.nodup_cons] at h
      by_cases hp : p.1 = k
      · simpa [mapDelete, hp] using mapGet_eq_none rest k (hp ▸ h.1)
      · simp [mapDelete, hp, mapGet, ih h.2]

theorem mem_keys_mapSet {α β : Type} [DecidableEq α] (m : List (α × β)) (k a : α) (v : β) :
    a ∈ (mapSet m k v).map Prod.fst ↔ a ∈ m.map Prod.fst ∨ a = k := by
  induction m with
  | nil => simp [mapSet]
  | cons p rest ih =>
      by_cases hp : p.1 = k
      · subst hp
        rw [mapSet, if_pos rfl]
        simp only [List.map_cons, List.mem_cons]
        tauto
      · rw [mapSet, if_neg hp]
        simp only [List.map_cons, List.mem_cons, ih]
        tauto

theorem keysNodup_mapSet {α β : Type} [DecidableEq α] (m : List (α × β)) (k : α) (v : β)
    (h : keysNodup m) : keysNodup (mapSet m k v) := by
  induction m with
  | nil => simp [mapSet, keysNodup]
  | cons p rest ih =>
      rw [keysNodup, List.map_cons, List.nodup_cons] at h
      by_cases hp : p.1 = k
      · subst hp
        rw [mapSet, if_pos rfl, keysNodup, List.map_cons, List.nodup_cons]
        exact ⟨h.1, h.2⟩
      · rw [mapSet, if_neg hp, keysNodup, List.map_cons, List.nodup_cons]
        refine ⟨?_, ih h.2⟩
        rw [mem_keys_mapSet]
        rintro (hmem | hke)
        · exact h.1 hmem
        · exact hp hke

theorem mapGet_mem {α β : Type} [DecidableEq α] (m : List (α × β)) (k : α) (v : β)
    (h : mapGet m k = some v) : (k, v) ∈ m := by
  induction m with
  | nil => simp [mapGet] at h
  | cons p rest ih =>
      obtain ⟨a, b⟩ := p
      rw [mapGet] at h
      by_cases hp : a = k
      · rw [if_pos hp] at h
        injection h with hbv
        subst hp
        subst hbv
        exact List.mem_cons_self _ _
      · rw [if_neg hp] at h
        exact List.mem_cons_of_mem _ (ih h)

/-- C3: `addPeer` is most-recent-wins.  An incoming record strictly older
than the stored one for the same address leaves the registry unchanged;
an update to an existing address is applied only if the incoming
`lastSeen` is not older than the stored one; and the operation is
idempotent (re-applying the identical record changes nothing). -/
theorem addPeer_most_recent_wins :
    (∀ (m : PeerMap) (r p : Peer), mapGet m p.ip = some r →
        p.lastSeen < r.lastSeen → addPeer p m = m)
    ∧ (∀ (m : PeerMap) (r p : Peer), mapGet m p.ip = some r →
        addPeer p m ≠ m → ¬ p.lastSeen < r.lastSeen)
    ∧ (∀ (m : PeerMap) (p : Peer), addPeer p (addPeer p m) = addPeer p m) := by
  refine ⟨?_, ?_, ?_⟩
  · intro m r p hget hlt
    rw [addPeer, hget]
    exact if_neg (asymm hlt)
  · intro m r p hget hne hlt
    apply hne
    rw [addPeer, hget]
    exact if_neg (asymm hlt)
  · intro m p
    cases hget : mapGet m p.ip with
    | none => simp [addPeer, hget, mapGet_set_self]
    | some ex =>
        by_cases hlt : ex.lastSeen < p.lastSeen
        · simp [addPeer, hget, hlt, mapGet_set_self]
        · simp [addPeer, hget, hlt]

/-- Concrete instance of `addPeer_most_recent_wins`: a stale update for
`10.0.0.5` is discarded. -/
theorem addPeer_most_recent_wins_witness :
    addPeer ⟨"10.0.0.5", "b", "10.0.0.5", 3001, "2024-01-01"⟩
      [("10.0.0.5", ⟨"10.0.0.5", "a", "10.0.0.5", 3001, "2024-06-01"⟩)] =
      [("10.0.0.5", ⟨"10.0.0.5", "a", "10.0.0.5", 3001, "2024-06-01"⟩)] :=
  addPeer_most_recent_wins.1
    [("10.0.0.5", ⟨"10.0.0.5", "a", "10.0.0.5", 3001, "2024-06-01"⟩)]
    ⟨"10.0.0.5", "a", "10.0.0.5", 3001, "2024-06-01"⟩
    ⟨"10.0.0.5", "b", "10.0.0.5", 3001, "2024-01-01"⟩
    (by decide) (by rw [String.lt_iff_toList_lt]; decide)

/-- C1: for every signaling type the relay handles, the forwarded envelope
carries the server-side sender identity (the session's registered IP,
falling back to the connection IP) and the fresh server timestamp; two
payloads that differ only in their claimed `fromIP` / `timestamp` fields
produce envelopes with identical `fromIP` and `timestamp`
(noninterference over the claimed sender). -/
theorem signaling_sender_noninterference
    (clientIPs : List (Nat × String)) (ws : Nat) (clientIP now : String) (d1 d2 : WsData)
    (hty : d1.type ∈ signalingTypes)
    (h2 : d2.type = d1.type) (_ht : d2.targetIP = d1.targetIP)
    (hn : d2.fromName = d1.fromName) (ho : d2.offer = d1.offer)
    (ha : d2.answer = d1.answer) (hc : d2.candidate = d1.candidate) :
    (buildSignal (senderOf clientIPs ws clientIP) now d1).map Envelope.fromIP
        = some (senderOf clientIPs ws clientIP) ∧
    (buildSignal (senderOf clientIPs ws clientIP) now d1).map Envelope.timestamp
        = some now ∧
    (buildSignal (senderOf clientIPs ws clientIP) now d2).map Envelope.fromIP
        = (buildSignal (senderOf clientIPs ws clientIP) now d1).map Envelope.fromIP ∧
    (buildSignal (senderOf clientIPs ws clientIP) now d2).map Envelope.timestamp
        = (buildSignal (senderOf clientIPs ws clientIP) now d1).map Envelope.timestamp := by
  simp only [signalingTypes, List.mem_cons, List.not_mem_nil, or_false] at hty
  rcases hty with h | h | h | h | h | h <;>
    refine ⟨?_, ?_, ?_, ?_⟩ <;>
    simp [buildSignal, h, h2, hn, ho, ha, hc]

/-- Concrete instance of `signaling_sender_noninterference`: a session
registered as `10.0.0.2` sends two `connection_request` payloads claiming
senders `6.6.6.6` and `7.7.7.7` with stale timestamps; both forwarded
envelopes carry `10.0.0.2` and the server time `T0`. -/
theorem signaling_sender_noninterference_witness :
    ((buildSignal (senderOf [(7, "10.0.0.2")] 7 "172.16.0.9") "T0"
        ⟨"connection_request", "", "10.0.0.3", "6.6.6.6", "1999", some "A",
          none, none, none⟩).map Envelope.fromIP
      = some (senderOf [(7, "10.0.0.2")] 7 "172.16.0.9")) ∧
    ((buildSignal (senderOf [(7, "10.0.0.2")] 7 "172.16.0.9") "T0"
        ⟨"connection_request", "", "10.0.0.3", "6.6.6.6", "1999", some "A",
          none, none, none⟩).map Envelope.timestamp = some "T0") ∧
    ((buildSignal (senderOf [(7, "10.0.0.2")] 7 "172.16.0.9") "T0"
        ⟨"connection_request", "", "10.0.0.3", "7.7.7.7", "2001", some "A",
          none, none, none⟩).map Envelope.fromIP
      = (buildSignal (senderOf [(7, "10.0.0.2")] 7 "172.16.0.9") "T0"
        ⟨"connection_request", "", "10.0.0.3", "6.6.6.6", "1999", some "A",
          none, none, none⟩).map Envelope.fromIP) ∧
    ((buildSignal (senderOf [(7, "10.0.0.2")] 7 "172.16.0.9") "T0"
        ⟨"connection_request", "", "10.0.0.3", "7.7.7.7", "2001", some "A",
          none, none, none⟩).map Envelope.timestamp
      = (buildSignal (senderOf [(7, "10.0.0.2")] 7 "172.16.0.9") "T0"
        ⟨"connection_request", "", "10.0.0.3", "6.6.6.6", "1999", some "A",
          none, none, none⟩).map Envelope.timestamp) :=
  signaling_sender_noninterference [(7, "10.0.0.2")] 7 "172.16.0.9" "T0"
    ⟨"connection_request", "", "10.0.0.3", "6.6.6.6", "1999", some "A", none, none, none⟩
    ⟨"connection_request", "", "10.0.0.3", "7.7.7.7", "2001", some "A", none, none, none⟩
    (by decide) rfl rfl rfl rfl rfl rfl

/-- C2: when local delivery does not apply and the remote forward fails,
the envelope is appended to the target's pending queue stamped with
`storedAt`; the first poll for that target drains and returns the whole
queue in insertion order (with the stamped envelope last), and an
immediately following second poll returns success with an empty message
list and count 0. -/
theorem failed_forward_polled_once
    (localIP targetIP now : String) (clients : List (String × Nat)) (openSess : Nat → Bool)
    (pending : PendingMap) (message : Envelope) (outcome : RemoteOutcome)
    (hnodup : keysNodup pending)
    (hip : targetIP ≠ "")
    (hlocal : ¬ (targetIP = localIP ∧ openAt clients openSess localIP = true))
    (hfail : forwardToRemoteServer targetIP outcome = false) :
    forwardSignalingMessage localIP clients openSess pending targetIP message outcome now
      = (storePending pending targetIP message now, DeliveryPath.queued) ∧
    pollSignalingRoute (storePending pending targetIP message now) targetIP
      = (PollResult.polled ((mapGet pending targetIP).getD [] ++ [⟨message, now⟩])
           (((mapGet pending targetIP).getD []).length + 1),
         mapDelete (storePending pending targetIP message now) targetIP) ∧
    pollSignalingRoute (mapDelete (storePending pending targetIP message now) targetIP)
        targetIP
      = (PollResult.polled [] 0,
         mapDelete (mapDelete (storePending pending targetIP message now) targetIP)
           targetIP) := by
  refine ⟨?_, ?_, ?_⟩
  · rw [forwardSignalingMessage, if_neg hlocal, if_neg (by simp [hfail])]
  · rw [pollSignalingRoute, if_neg hip]
    simp [getPendingSignaling, storePending, mapGet_set_self]
  · rw [pollSignalingRoute, if_neg hip]
    have h1 : keysNodup (storePending pending targetIP message now) :=
      keysNodup_mapSet _ _ _ hnodup
    have h2 : mapGet (mapDelete (storePending pending targetIP message now) targetIP)
        targetIP = none := mapGet_delete_self _ _ h1
    simp [getPendingSignaling, h2]

/-- Concrete instance of `failed_forward_polled_once`: a timeout while
forwarding to `10.0.0.9` queues the envelope; the first poll returns it,
the second poll returns nothing. -/
theorem failed_forward_polled_once_witness :
    forwardSignalingMessage "10.0.0.1" [] (fun _ => false) [] "10.0.0.9"
        ⟨"connection_request", "10.0.0.2", some "Peer A", none, none, none, "T1"⟩
        RemoteOutcome.timeout "T2"
      = ([("10.0.0.9",
           [⟨⟨"connection_request", "10.0.0.2", some "Peer A", none, none, none, "T1"⟩,
             "T2"⟩])],
         DeliveryPath.queued) ∧
    pollSignalingRoute
        [("10.0.0.9",
          [⟨⟨"connection_request", "10.0.0.2", some "Peer A", none, none, none, "T1"⟩,
            "T2"⟩])] "10.0.0.9"
      = (PollResult.polled
           [⟨⟨"connection_request", "10.0.0.2", some "Peer A", none, none, none, "T1"⟩,
             "T2"⟩] 1, []) ∧
    pollSignalingRoute [] "10.0.0.9" = (PollResult.polled [] 0, []) :=
  failed_forward_polled_once "10.0.0.1" "10.0.0.9" "T2" [] (fun _ => false) []
    ⟨"connection_request", "10.0.0.2", some "Peer A", none, none, none, "T1"⟩
    RemoteOutcome.timeout (by simp [keysNodup]) (by decide) (by decide) (by decide)

theorem forwardMessage_exact_open (clients : List (String × Nat)) (openSess : Nat → Bool)
    (targetIP : String) (ws0 : Nat) (hget : mapGet clients targetIP = some ws0)
    (hopen : openSess ws0 = true) :
    forwardMessage clients openSess targetIP = Route.localExact ws0 := by
  simp [forwardMessage, hget, hopen]

theorem ipMatches_self (ip : String) : ipMatches ip ip = true := by
  simp [ipMatches]

/-- C4: routing an envelope matches the destination against local
sessions by exact key lookup first — in particular, a destination equal
to this process's own address with an open session keyed by it is
delivered directly, with no remote forward and no queueing — and the
relay falls back to remote forwarding exactly when no open session
matches the normalize-and-contain heuristic either. -/
theorem local_delivery_match_policy :
    (∀ (localIP : String) (clients : List (String × Nat)) (openSess : Nat → Bool)
        (pending : PendingMap) (targetIP : String) (message : Envelope)
        (outcome : RemoteOutcome) (now : String),
        targetIP = localIP → openAt clients openSess localIP = true →
        forwardSignalingMessage localIP clients openSess pending targetIP message outcome now
          = (pending, DeliveryPath.localDelivered))
    ∧ (∀ (clients : List (String × Nat)) (openSess : Nat → Bool) (targetIP : String)
        (ws0 : Nat), mapGet clients targetIP = some ws0 → openSess ws0 = true →
        forwardMessage clients openSess targetIP = Route.localExact ws0)
    ∧ (∀ (clients : List (String × Nat)) (openSess : Nat → Bool) (targetIP : String),
        forwardMessage clients openSess targetIP = Route.remote ↔
          ∀ p ∈ clients, openSess p.2 = true → ipMatches p.1 targetIP = false) := by
  refine ⟨?_, ?_, ?_⟩
  · intro localIP clients openSess pending targetIP message outcome now h1 h2
    rw [forwardSignalingMessage, if_pos ⟨h1, h2⟩]
  · intro clients openSess targetIP ws0 hget hopen
    exact forwardMessage_exact_open clients openSess targetIP ws0 hget hopen
  · intro clients openSess targetIP
    constructor
    · intro hrm p hp hopen
      cases hfind : findHeuristic clients openSess targetIP with
      | some q =>
          exfalso
          cases hget : mapGet clients targetIP with
          | some ws0 =>
              cases hop : openSess ws0 with
              | true =>
                  rw [forwardMessage_exact_open clients openSess targetIP ws0 hget hop]
                    at hrm
                  cases hrm
              | false => simp [forwardMessage, hget, hop, hfind] at hrm
          | none => simp [forwardMessage, hget, hfind] at hrm
      | none =>
          have h := List.find?_eq_none.mp hfind p hp
          simpa [hopen] using h
    · intro hall
      have hfind : findHeuristic clients openSess targetIP = none := by
        rw [findHeuristic, List.find?_eq_none]
        intro p hp
        cases hopen : openSess p.2 with
        | true => simp [hall p hp hopen]
        | false => simp [hopen]
      cases hget : mapGet clients targetIP with
      | some ws0 =>
          cases hop : openSess ws0 with
          | true =>
              exfalso
              have hmem := mapGet_mem clients targetIP ws0 hget
              have hfalse : ipMatches targetIP targetIP = false := hall (targetIP, ws0) hmem hop
              rw [ipMatches_self] at hfalse
              cases hfalse
          | false => simp [forwardMessage, hget, hop, hfind]
      | none => simp [forwardMessage, hget, hfind]

/-- Concrete instance of `local_delivery_match_policy`: with the only
session registered under a different, non-matching address, routing for
`10.0.0.9` falls back to remote forwarding. -/
theorem local_delivery_match_policy_witness :
    forwardMessage [("10.0.0.5", 1)] (fun _ => true) "10.0.0.9" = Route.remote :=
  (local_delivery_match_policy.2.2 [("10.0.0.5", 1)] (fun _ => true) "10.0.0.9").mpr
    (by decide)

/-- C5: after two sequential `register` messages for the same address
from two different sessions, the address is keyed to the second session
only; the first session's reverse mapping is still present (its
connection was not closed), and an envelope addressed to that address is
routed to the second session. -/
theorem register_last_write_wins
    (clients : List (String × Nat)) (clientIPs : List (Nat × String))
    (s1 s2 : Nat) (a : String) (hne : s1 ≠ s2) :
    mapGet (registerClient (registerClient clients clientIPs s1 a).1
        (registerClient clients clientIPs s1 a).2 s2 a).1 a = some s2 ∧
    mapGet (registerClient (registerClient clients clientIPs s1 a).1
        (registerClient clients clientIPs s1 a).2 s2 a).2 s1 = some a ∧
    (∀ openSess : Nat → Bool, openSess s2 = true →
        forwardMessage (registerClient (registerClient clients clientIPs s1 a).1
            (registerClient clients clientIPs s1 a).2 s2 a).1 openSess a
          = Route.localExact s2) := by
  refine ⟨?_, ?_, ?_⟩
  · simp [registerClient, mapGet_set_self]
  · simp [registerClient, mapGet_set_ne _ _ _ _ hne, mapGet_set_self]
  · intro openSess hopen
    apply forwardMessage_exact_open
    · simp [registerClient, mapGet_set_self]
    · exact hopen

/-- Concrete instance of `register_last_write_wins`: sessions 1 then 2
both register `10.0.0.5`; envelopes for `10.0.0.5` now route to
session 2. -/
theorem register_last_write_wins_witness :
    forwardMessage [("10.0.0.5", 2)] (fun _ => true) "10.0.0.5" = Route.localExact 2 :=
  (register_last_write_wins [] [] 1 2 "10.0.0.5" (by decide)).2.2 (fun _ => true) rfl

/-- C9: `handleForwardedMessage` reports no delivery exactly when no open
session exists at all; when no open session is keyed by the local
address, it delivers to the first open session in insertion order,
regardless of the address that session registered. -/
theorem forwarded_delivery_fallback
    (clients : List (String × Nat)) (openSess : Nat → Bool) (localIP : String) :
    (handleForwardedMessage clients openSess localIP = none ↔
        ∀ p ∈ clients, openSess p.2 = false) ∧
    (openAt clients openSess localIP = false →
        handleForwardedMessage clients openSess localIP
          = clients.find? (fun p => openSess p.2)) := by
  constructor
  · cases hget : mapGet clients localIP with
    | none => simp [handleForwardedMessage, hget, List.find?_eq_none]
    | some ws =>
        cases hop : openSess ws with
        | true =>
            simp only [handleForwardedMessage, hget, hop, if_true]
            constructor
            · intro h; cases h
            · intro hall
              exfalso
              have hmem := mapGet_mem clients localIP ws hget
              have hfalse : openSess ws = false := hall (localIP, ws) hmem
              rw [hop] at hfalse
              cases hfalse
        | false => simp [handleForwardedMessage, hget, hop, List.find?_eq_none]
  · intro h
    cases hget : mapGet clients localIP with
    | none => simp [handleForwardedMessage, hget]
    | some ws =>
        simp only [openAt, hget] at h
        simp [handleForwardedMessage, hget, h]

/-- Concrete instance of `forwarded_delivery_fallback`: with no session
keyed by the local address `10.0.0.5`, the envelope is delivered to the
first open session even though it registered `10.0.0.7`. -/
theorem forwarded_delivery_fallback_witness :
    handleForwardedMessage [("10.0.0.7", 4)] (fun _ => true) "10.0.0.5"
      = some ("10.0.0.7", 4) :=
  (forwarded_delivery_fallback [("10.0.0.7", 4)] (fun _ => true) "10.0.0.5").2 (by decide)

/-- C7 counterexample: a well-formed envelope delivered through
`POST /forward` yields a response body with a `success` field but no
`delivered` field at all, contradicting the claimed
`{success, delivered}` shape. -/
theorem forward_route_no_delivered_field :
    mapGet (forwardRoute [("10.0.0.5", 1)] (fun _ => true) "10.0.0.5"
        (some ⟨"connection_request", "10.0.0.7"⟩)).body "delivered" = none ∧
    mapGet (forwardRoute [("10.0.0.5", 1)] (fun _ => true) "10.0.0.5"
        (some ⟨"connection_request", "10.0.0.7"⟩)).body "success"
      = some (JVal.jbool true) := by decide

/-- C7 amended: for every well-formed envelope, the `/forward` response
is a 200 whose `success` field is the boolean delivery result (whether a
connected local client received the envelope); there is no separate
`delivered` field. -/
theorem forward_route_success_reports_delivery
    (clients : List (String × Nat)) (openSess : Nat → Bool) (localIP : String)
    (msg : ForwardBody) (h : msg.fromIP ≠ "") :
    (forwardRoute clients openSess localIP (some msg)).status = 200 ∧
    mapGet (forwardRoute clients openSess localIP (some msg)).body "success"
      = some (JVal.jbool (handleForwardedMessage clients openSess localIP).isSome) ∧
    mapGet (forwardRoute clients openSess localIP (some msg)).body "delivered" = none := by
  simp [forwardRoute, h, mapGet]

/-- Concrete instance of `forward_route_success_reports_delivery`: no
client connected, so `success` is `false` and no `delivered` field is
present. -/
theorem forward_route_success_reports_delivery_witness :
    (forwardRoute [] (fun _ => true) "10.0.0.5" (some ⟨"ping", "10.0.0.7"⟩)).status = 200 ∧
    mapGet (forwardRoute [] (fun _ => true) "10.0.0.5"
        (some ⟨"ping", "10.0.0.7"⟩)).body "success" = some (JVal.jbool false) ∧
    mapGet (forwardRoute [] (fun _ => true) "10.0.0.5"
        (some ⟨"ping", "10.0.0.7"⟩)).body "delivered" = none :=
  forward_route_success_reports_delivery [] (fun _ => true) "10.0.0.5"
    ⟨"ping", "10.0.0.7"⟩ (by decide)

theorem foldl_checkPeerServerAdds (healthOk : String → Bool) (ts : String → String) :
    ∀ (l : List String) (m : PeerMap),
      l.foldl (fun acc ip => checkPeerServerAdds ip healthOk ts acc) m
        = (l.filter (fun ip => !shouldSkipIP ip && healthOk ip)).foldl
            (fun acc ip => addPeer (peerOfProbe ip (ts ip)) acc) m := by
  intro l
  induction l with
  | nil => intro m; rfl
  | cons x xs ih =>
      intro m
      simp only [checkPeerServerAdds] at ih ⊢
      simp only [List.foldl_cons, List.filter_cons]
      by_cases hs : shouldSkipIP x = true
      · simp [hs, ih]
      · have hs2 : shouldSkipIP x = false := by simpa using hs
        by_cases hk : healthOk x = true
        · simp [hs2, hk, ih]
        · have hk2 : healthOk x = false := by simpa using hk
          simp [hs2, hk2, ih]

/-- C6: a discovery round is a total function of the probe outcomes — it
returns a success response for every combination of per-probe results,
failed or skipped probes are simply filtered out of the round's effect —
and when every probe fails and no discovery response arrives the round
returns success with an empty peer list. -/
theorem discover_round_total :
    (∀ (localIP : String) (healthOk : String → Bool) (ts : String → String)
        (responses : List (DiscoveryMessage × String)),
        (discoverRoute localIP healthOk ts responses).success = true)
    ∧ (∀ (localIP : String) (healthOk : String → Bool) (ts : String → String) (m : PeerMap),
        scanNetwork localIP healthOk ts m
          = ((generateIPRange (getNetworkBase localIP) localIP).filter
              (fun ip => !shouldSkipIP ip && healthOk ip)).foldl
              (fun acc ip => addPeer (peerOfProbe ip (ts ip)) acc) m)
    ∧ (∀ (localIP : String) (ts : String → String),
        discoverRoute localIP (fun _ => false) ts [] = ⟨true, [], localIP⟩) := by
  refine ⟨?_, ?_, ?_⟩
  · intro localIP healthOk ts responses
    rfl
  · intro localIP healthOk ts m
    exact foldl_checkPeerServerAdds healthOk ts _ m
  · intro localIP ts
    rw [discoverRoute, discoverPeers, scanNetwork, foldl_checkPeerServerAdds]
    simp [clearPeers, getPeers]

/-- C8: an unparseable inbound frame — on a local signaling session or on
the UDP discovery listener — leaves the whole server state (client maps,
pending queues, peer registry) unchanged. -/
theorem malformed_message_dropped
    (wsParse : String → Option WsData) (udpParse : String → Option DiscoveryMessage)
    (localIP clientIP now raw : String) (openSess : Nat → Bool) (outcome : RemoteOutcome)
    (st : ServerState) (ws : Nat) (m : PeerMap)
    (hws : wsParse raw = none) (hudp : udpParse raw = none) :
    wsOnMessage wsParse localIP openSess outcome st ws clientIP now raw = st ∧
    udpOnMessage udpParse localIP now m raw = m := by
  constructor
  · simp [wsOnMessage, hws]
  · simp [udpOnMessage, hudp]

/-- Concrete instance of `malformed_message_dropped`: a frame the JSON
parser rejects changes nothing. -/
theorem malformed_message_dropped_witness :
    wsOnMessage (fun _ => none) "10.0.0.1" (fun _ => true) RemoteOutcome.ok
        ⟨[("10.0.0.2", 1)], [(1, "10.0.0.2")], [], []⟩ 1 "10.0.0.2" "T" "not json"
      = ⟨[("10.0.0.2", 1)], [(1, "10.0.0.2")], [], []⟩ ∧
    udpOnMessage (fun _ => none) "10.0.0.1" "T" [] "not json" = [] :=
  malformed_message_dropped (fun _ => none) (fun _ => none) "10.0.0.1" "10.0.0.2" "T"
    "not json" (fun _ => true) RemoteOutcome.ok
    ⟨[("10.0.0.2", 1)], [(1, "10.0.0.2")], [], []⟩ 1 [] rfl rfl

theorem mem_mapSet {α β : Type} [DecidableEq α] (m : List (α × β)) (k : α) (v : β)
    (q : α × β) (h : q ∈ mapSet m k v) : q = (k, v) ∨ q ∈ m := by
  induction m with
  | nil => simpa [mapSet] using h
  | cons p rest ih =>
      by_cases hp : p.1 = k
      · rw [mapSet, if_pos hp] at h
        rcases List.mem_cons.mp h with h | h
        · exact Or.inl h
        · exact Or.inr (List.mem_cons_of_mem _ h)
      · rw [mapSet, if_neg hp] at h
        rcases List.mem_cons.mp h with h | h
        · exact Or.inr (h ▸ List.mem_cons_self _ _)
        · rcases ih h with h | h
          · exact Or.inl h
          · exact Or.inr (List.mem_cons_of_mem _ h)

theorem addPeer_cases (peer : Peer) (m : PeerMap) :
    addPeer peer m = m ∨ addPeer peer m = mapSet m peer.ip peer := by
  rw [addPeer]
  cases mapGet m peer.ip with
  | none => exact Or.inr rfl
  | some ex =>
      by_cases h : ex.lastSeen < peer.lastSeen
      · right; simp [h]
      · left; simp [h]

theorem noSelfRecord_addPeer (localIP : String) (peer : Peer) (m : PeerMap)
    (hm : NoSelfRecord localIP m) (hip : peer.ip ≠ localIP) :
    NoSelfRecord localIP (addPeer peer m) := by
  rcases addPeer_cases peer m with he | he
  · rw [he]; exact hm
  · rw [he]
    intro e hmem
    rcases mem_mapSet m peer.ip peer e hmem with h | h
    · subst h; exact ⟨hip, hip⟩
    · exact hm e h

theorem ne_of_mem_generateIPRange (baseIP excludeIP ip : String)
    (h : ip ∈ generateIPRange baseIP excludeIP) : ip ≠ excludeIP := by
  simp only [generateIPRange] at h
  have := List.of_mem_filter h
  simpa using this

theorem noSelfRecord_discoveryStep (localIP : String) (m : PeerMap) (ev : DiscoveryEvent)
    (hm : NoSelfRecord localIP m)
    (hp : ∀ ip ok now, ev = DiscoveryEvent.probe ip ok now →
        ip ∈ generateIPRange (getNetworkBase localIP) localIP) :
    NoSelfRecord localIP (discoveryStep localIP m ev) := by
  cases ev with
  | clearRegistry =>
      intro e he
      simp [discoveryStep, clearPeers] at he
  | probe ip ok now =>
      have hip : ip ≠ localIP :=
        ne_of_mem_generateIPRange _ _ _ (hp ip ok now rfl)
      simp only [discoveryStep, checkPeerServerAdds]
      by_cases hs : shouldSkipIP ip = true
      · simpa [hs] using hm
      · have hs2 : shouldSkipIP ip = false := by simpa using hs
        cases ok with
        | true => simpa [hs2] using noSelfRecord_addPeer localIP _ m hm hip
        | false => simpa [hs2] using hm
  | response message now =>
      simp only [discoveryStep, handleDiscoveryResponse]
      by_cases hc : message.ip = localIP ∨ shouldSkipIP message.ip = true
      · simpa [if_pos hc] using hm
      · rw [if_neg hc]
        have hip : message.ip ≠ localIP := fun he => hc (Or.inl he)
        exact noSelfRecord_addPeer localIP _ m hm hip

theorem noSelfRecord_foldl (localIP : String) :
    ∀ (events : List DiscoveryEvent) (m : PeerMap), NoSelfRecord localIP m →
      (∀ ip ok now, DiscoveryEvent.probe ip ok now ∈ events →
          ip ∈ generateIPRange (getNetworkBase localIP) localIP) →
      NoSelfRecord localIP (events.foldl (discoveryStep localIP) m) := by
  intro events
  induction events with
  | nil => intro m hm _; exact hm
  | cons ev evs ih =>
      intro m hm hprobe
      rw [List.foldl_cons]
      apply ih
      · apply noSelfRecord_discoveryStep localIP m ev hm
        intro ip ok now hev
        exact hprobe ip ok now (by rw [← hev]; exact List.mem_cons_self _ _)
      · intro ip ok now hmem
        exact hprobe ip ok now (List.mem_cons_of_mem _ hmem)

/-- C10: neither discovery path can register the local process's own
address — a discovery response carrying the local IP is dropped, the
subnet-scan range excludes the local IP, and hence any sequence of
discovery events starting from a registry free of the local address
leaves it free of the local address. -/
theorem discovery_never_registers_self
    (localIP : String) (events : List DiscoveryEvent) (m : PeerMap)
    (hm : NoSelfRecord localIP m)
    (hprobe : ∀ ip ok now, DiscoveryEvent.probe ip ok now ∈ events →
        ip ∈ generateIPRange (getNetworkBase localIP) localIP) :
    NoSelfRecord localIP (events.foldl (discoveryStep localIP) m) ∧
    (∀ (now : String) (message : DiscoveryMessage) (m2 : PeerMap),
        message.ip = localIP → handleDiscoveryResponse localIP now message m2 = m2) ∧
    localIP ∉ generateIPRange (getNetworkBase localIP) localIP := by
  refine ⟨noSelfRecord_foldl localIP events m hm hprobe, ?_, ?_⟩
  · intro now message m2 h
    rw [handleDiscoveryResponse, if_pos (Or.inl h)]
  · intro hmem
    have := ne_of_mem_generateIPRange _ _ _ hmem
    exact this rfl

/-- Concrete instance of `discovery_never_registers_self`: a round whose
only event is a discovery response from `192.168.1.9` leaves the local
address `192.168.1.7` out of the registry. -/
theorem discovery_never_registers_self_witness :
    NoSelfRecord "192.168.1.7"
      ([DiscoveryEvent.response ⟨"DISCOVERY_RESPONSE", "192.168.1.9", none, none⟩ "T"].foldl
        (discoveryStep "192.168.1.7") []) ∧
    (∀ (now : String) (message : DiscoveryMessage) (m2 : PeerMap),
        message.ip = "192.168.1.7" →
          handleDiscoveryResponse "192.168.1.7" now message m2 = m2) ∧
    "192.168.1.7" ∉ generateIPRange (getNetworkBase "192.168.1.7") "192.168.1.7" :=
  discovery_never_registers_self "192.168.1.7"
    [DiscoveryEvent.response ⟨"DISCOVERY_RESPONSE", "192.168.1.9", none, none⟩ "T"] []
    (by intro e he; simp at he)
    (by intro ip ok now h; simp at h)

end PeerDrop
